import Mathlib

/-!
Verification development for the `mdframe` pixel-canvas server (`src/index.js`).

The development shallowly embeds the server's state and its operations:

* the grid configuration constants (`src/index.js` lines 19-20);
* the in-memory state `grid` / `userPixels` (lines 22-23);
* the claim scan of the `POST /api/frame` handler (lines 181-201), including
  the persistence call `saveData` and the response construction (lines 203-215);
* `loadData` / startup (lines 25-36, 218-222);
* the JSON snapshot round trip used by `saveData`/`loadData` (lines 38-41, 25-36);
* the image pipeline `generatePixelColor` / `generateImage` (lines 43-89).

JavaScript specifics that matter are modelled explicitly: `null` vs `undefined`
(the handler passes `claimedPosition?.x`, which is `undefined` when no cell was
claimed), the falsy test `!grid[y][x]`, and the fact that a `for` loop whose
bounds are `NaN` executes no iterations.
-/

set_option maxRecDepth 4000

/-- Grid configuration (`src/index.js` line 19). -/
def GRID_SIZE : Nat := 1000

/-- Grid configuration (`src/index.js` line 20). -/
def TOKEN_SIZE : Nat := 10

/-- Number of lattice steps per side: the loops `for (y = 0; y < GRID_SIZE;
y += TOKEN_SIZE)` perform `GRID_SIZE / TOKEN_SIZE` iterations. -/
def latticeCount : Nat := GRID_SIZE / TOKEN_SIZE

/-- Owner identity: `untrustedData.fid`, a Farcaster id (a number). -/
abbrev Fid := Nat

/-- A grid cell: `null` (unclaimed) or the object `{ fid }` written by the
claim loop (`src/index.js` line 187).  `Option.isNone` models the falsy test
`!grid[y][x]` (line 186): `null` is falsy, `{ fid }` is truthy. -/
abbrev Cell := Option Fid

/-- A claimed coordinate `(x, y)`, the object `claimedPosition = { x, y }`. -/
abbrev Coord := Nat × Nat

/-- The grid, indexed as in the source: `grid[y][x]`. -/
abbrev GridFun := Nat → Nat → Cell

/-- In-memory server state: `grid` and `userPixels` (`src/index.js` lines
22-23).  `userPixels` is the identity → claimed-coordinate-list object; a
missing key is modelled as the empty list (the handler creates `[]` on first
use, line 196-198, and `GET /api/user-pixels` reads `userPixels[fid] || []`). -/
structure ServerState where
  grid : GridFun
  userPixels : Fid → List Coord

/-- The freshly initialised state (`src/index.js` lines 22-23):
`Array(GRID_SIZE).fill().map(() => Array(GRID_SIZE).fill(null))` and `{}`. -/
def initialState : ServerState :=
  { grid := fun _ _ => none, userPixels := fun _ => [] }

/-- The lattice coordinates `(x, y)` in the exact order visited by the claim
scan (`src/index.js` lines 184-185): `y` outer, `x` inner, both from `0`
stepping by `TOKEN_SIZE` while `< GRID_SIZE`; iteration `i` of a loop
visits the value `TOKEN_SIZE * i`. -/
def scanOrder : List Coord :=
  (List.range latticeCount).flatMap fun i =>
    (List.range latticeCount).map fun j => (TOKEN_SIZE * j, TOKEN_SIZE * i)

/-- The grid cell at a scanned coordinate: `grid[y][x]` for `c = (x, y)`. -/
def cellAt (g : GridFun) (c : Coord) : Cell := g c.2 c.1

/-- The claim scan (`src/index.js` lines 181-193): the first coordinate in
scan order whose cell is falsy (`!grid[y][x]`), if any. -/
def findFirstUnclaimed (g : GridFun) : Option Coord :=
  scanOrder.find? fun c => (cellAt g c).isNone

/-- One claim operation (`src/index.js` lines 181-199): scan for the first
unclaimed cell; if found, write `{ fid }` into the grid and append the
coordinate to `userPixels[fid]` (creating the list if absent).  Returns the
claimed position (or `none`) together with the post-state. -/
def claimStep (fid : Fid) (s : ServerState) : Option Coord × ServerState :=
  match findFirstUnclaimed s.grid with
  | none => (none, s)
  | some c =>
    (some c,
      { grid := fun y x => if y = c.2 ∧ x = c.1 then some fid else s.grid y x
        userPixels := fun f => if f = fid then s.userPixels f ++ [c] else s.userPixels f })

/-- Repeated claim requests: the state after handling each fid in turn. -/
def runClaims : List Fid → ServerState → ServerState
  | [], s => s
  | f :: fs, s => runClaims fs (claimStep f s).2

/-- State after a sequence of claim requests starting from the fresh state. -/
def stateAfter (fs : List Fid) : ServerState := runClaims fs initialState

/-- The sequence of results returned by a sequence of claim requests. -/
def runResults : List Fid → ServerState → List (Option Coord)
  | [], _ => []
  | f :: fs, s => (claimStep f s).1 :: runResults fs (claimStep f s).2

/-! ### Characterisation of the scan order -/

theorem latticeCount_eq : latticeCount = 100 := by
  norm_num [latticeCount, GRID_SIZE, TOKEN_SIZE]

theorem flatMap_range_map {α : Type} (g : Nat → Nat → α) (k : Nat) :
    ∀ m, (List.range m).flatMap (fun i => (List.range k).map (g i)) =
      (List.range (m * k)).map fun n => g (n / k) (n % k) := by
  intro m
  induction m with
  | zero => simp
  | succ m ih =>
    rw [List.range_succ, List.flatMap_append, ih, Nat.succ_mul, List.range_add,
      List.map_append]
    congr 1
    · simp only [List.flatMap_cons, List.flatMap_nil, List.append_nil, List.map_map]
      refine List.map_congr_left fun j hj => ?_
      have hjk : j < k := List.mem_range.mp hj
      have hdiv : (m * k + j) / k = m := by
        rw [Nat.mul_comm m k, Nat.mul_add_div (by omega), Nat.div_eq_of_lt hjk]
        omega
      have hmod : (m * k + j) % k = j := by
        rw [Nat.mul_comm m k, Nat.mul_add_mod, Nat.mod_eq_of_lt hjk]
      simp [Function.comp, hdiv, hmod]

theorem scanOrder_eq_map :
    scanOrder = (List.range 10000).map fun n => (10 * (n % 100), 10 * (n / 100)) := by
  have h := flatMap_range_map
    (fun i j => ((TOKEN_SIZE * j, TOKEN_SIZE * i) : Coord)) latticeCount latticeCount
  rw [scanOrder, h, latticeCount_eq]
  norm_num [TOKEN_SIZE]

theorem scanOrder_length : scanOrder.length = 10000 := by
  rw [scanOrder_eq_map]; simp

theorem scanOrder_get (i : Nat) (h : i < scanOrder.length) :
    scanOrder.get ⟨i, h⟩ = (10 * (i % 100), 10 * (i / 100)) := by
  have hi : i < 10000 := by rw [scanOrder_length] at h; exact h
  simp [scanOrder_eq_map, hi]

theorem scanOrder_get_inj {i j : Nat} (hi : i < scanOrder.length)
    (hj : j < scanOrder.length) (h : scanOrder.get ⟨i, hi⟩ = scanOrder.get ⟨j, hj⟩) :
    i = j := by
  rw [scanOrder_get i hi, scanOrder_get j hj] at h
  have h1 := congrArg Prod.fst h
  have h2 := congrArg Prod.snd h
  simp only at h1 h2
  omega

theorem scanOrder_mem_bounds {c : Coord} (h : c ∈ scanOrder) :
    c.1 < GRID_SIZE ∧ c.2 < GRID_SIZE := by
  rw [scanOrder_eq_map] at h
  obtain ⟨n, hn, rfl⟩ := List.mem_map.mp h
  have := List.mem_range.mp hn
  constructor <;> · show _ < GRID_SIZE; norm_num [GRID_SIZE]; omega

/-! ### The claim scan grants cells in scan order -/

/-- `find?` returns the element at index `n` when the predicate fails on all
earlier indices and holds at `n`. -/
theorem find?_of_first_index {α : Type} (p : α → Bool) :
    ∀ (l : List α) (n : Nat) (hn : n < l.length),
      (∀ j (hj : j < n), p (l.get ⟨j, Nat.lt_trans hj hn⟩) = false) →
      p (l.get ⟨n, hn⟩) = true →
      l.find? p = some (l.get ⟨n, hn⟩) := by
  intro l
  induction l with
  | nil => intro n hn; simp at hn
  | cons a t ih =>
    intro n hn hbefore hat
    cases n with
    | zero =>
      simp only [List.get] at hat ⊢
      simp [List.find?, hat]
    | succ m =>
      have h0 : p a = false := hbefore 0 (Nat.succ_pos m)
      have hm : m < t.length := by simpa using hn
      have := ih m hm
        (fun j hj => hbefore (j + 1) (by omega))
        (by simpa using hat)
      simp only [List.get] at this ⊢
      simp [List.find?, h0, this]

/-- The grid has exactly the first `n` scan-order cells claimed. -/
def claimedUpTo (n : Nat) (g : GridFun) : Prop :=
  ∀ i (h : i < scanOrder.length),
    ((cellAt g (scanOrder.get ⟨i, h⟩)).isSome = true ↔ i < n)

theorem claimedUpTo_initial : claimedUpTo 0 initialState.grid := by
  intro i h
  simp [cellAt, initialState]

theorem claimedUpTo_find {n : Nat} {g : GridFun} (hn : n < scanOrder.length)
    (h : claimedUpTo n g) :
    findFirstUnclaimed g = some (scanOrder.get ⟨n, hn⟩) := by
  refine find?_of_first_index _ scanOrder n hn ?_ ?_
  · intro j hj
    have := (h j (Nat.lt_trans hj hn)).mpr hj
    cases hc : cellAt g (scanOrder.get ⟨j, Nat.lt_trans hj hn⟩) with
    | none => rw [hc] at this; simp at this
    | some v => simp
  · have : ¬ ((cellAt g (scanOrder.get ⟨n, hn⟩)).isSome = true) := by
      rw [h n hn]; omega
    cases hc : cellAt g (scanOrder.get ⟨n, hn⟩) with
    | none => simp
    | some v => rw [hc] at this; simp at this

theorem claimStep_of_claimedUpTo {n : Nat} {s : ServerState} (hn : n < scanOrder.length)
    (h : claimedUpTo n s.grid) (f : Fid) :
    (claimStep f s).1 = some (scanOrder.get ⟨n, hn⟩) ∧
      claimedUpTo (n + 1) (claimStep f s).2.grid := by
  have hfind := claimedUpTo_find hn h
  constructor
  · simp [claimStep, hfind]
  · intro i hi
    simp only [claimStep, hfind]
    by_cases hin : i = n
    · subst hin
      simp [cellAt]
    · have hne : scanOrder.get ⟨i, hi⟩ ≠ scanOrder.get ⟨n, hn⟩ := by
        intro he; exact hin (scanOrder_get_inj hi hn he)
      have hcond : ¬ ((scanOrder.get ⟨i, hi⟩).2 = (scanOrder.get ⟨n, hn⟩).2 ∧
          (scanOrder.get ⟨i, hi⟩).1 = (scanOrder.get ⟨n, hn⟩).1) := by
        rintro ⟨h2, h1⟩
        exact hne (Prod.ext h1 h2)
      simp only [cellAt, if_neg hcond]
      have hh := h i hi
      simp only [cellAt] at hh
      rw [hh]
      omega

theorem runClaims_claimedUpTo :
    ∀ (fs : List Fid) (s : ServerState) (n : Nat), claimedUpTo n s.grid →
      n + fs.length ≤ scanOrder.length →
      claimedUpTo (n + fs.length) (runClaims fs s).grid := by
  intro fs
  induction fs with
  | nil => intro s n h _; simpa using h
  | cons f t ih =>
    intro s n h hle
    have hn : n < scanOrder.length := by simp at hle; omega
    have hstep := (claimStep_of_claimedUpTo hn h f).2
    have := ih (claimStep f s).2 (n + 1) hstep (by simp at hle ⊢; omega)
    have harith : n + (f :: t).length = n + 1 + t.length := by simp; omega
    rw [harith]
    exact this

/-- C1: the Nth successful claim (0-indexed) from the empty grid lands at
`(N*TOKEN_SIZE mod GRID_SIZE, floor(N*TOKEN_SIZE/GRID_SIZE)*TOKEN_SIZE)`:
claims are granted in strict row-major lattice order, `y` outer, `x` inner,
both stepping by `TOKEN_SIZE` from `0`. -/
theorem claims_granted_row_major (fs : List Fid) (f : Fid) (N : Nat)
    (hlen : fs.length = N) (hN : N < (GRID_SIZE / TOKEN_SIZE) ^ 2) :
    (claimStep f (stateAfter fs)).1 =
      some (N * TOKEN_SIZE % GRID_SIZE, N * TOKEN_SIZE / GRID_SIZE * TOKEN_SIZE) := by
  have hN' : N < 10000 := by
    have : (GRID_SIZE / TOKEN_SIZE) ^ 2 = 10000 := by norm_num [GRID_SIZE, TOKEN_SIZE]
    omega
  have hNlen : N < scanOrder.length := by rw [scanOrder_length]; exact hN'
  have hrun := runClaims_claimedUpTo fs initialState 0 claimedUpTo_initial
    (by rw [scanOrder_length]; omega)
  rw [Nat.zero_add, hlen] at hrun
  have := (claimStep_of_claimedUpTo hNlen hrun f).1
  rw [stateAfter, this, scanOrder_get]
  have hx : 10 * (N % 100) = N * TOKEN_SIZE % GRID_SIZE := by
    norm_num [TOKEN_SIZE, GRID_SIZE]; omega
  have hy : 10 * (N / 100) = N * TOKEN_SIZE / GRID_SIZE * TOKEN_SIZE := by
    norm_num [TOKEN_SIZE, GRID_SIZE]; omega
  rw [hx, hy]

/-- Witness for C1: after three claims, the fourth lands at `(30, 0)`. -/
theorem claims_granted_row_major_witness :
    ([1, 1, 2] : List Fid).length = 3 ∧ 3 < (GRID_SIZE / TOKEN_SIZE) ^ 2 ∧
      (claimStep 5 (stateAfter [1, 1, 2])).1 = some (30, 0) :=
  ⟨rfl, by norm_num [GRID_SIZE, TOKEN_SIZE],
    claims_granted_row_major [1, 1, 2] 5 3 rfl (by norm_num [GRID_SIZE, TOKEN_SIZE])⟩

/-! ### Cells are claimed at most once -/

theorem claimStep_found {f : Fid} {s : ServerState} {c : Coord}
    (h : (claimStep f s).1 = some c) :
    s.grid c.2 c.1 = none ∧ c ∈ scanOrder ∧
      (claimStep f s).2.grid c.2 c.1 = some f ∧
      (claimStep f s).2.userPixels f = s.userPixels f ++ [c] := by
  unfold claimStep at h ⊢
  cases hfind : findFirstUnclaimed s.grid with
  | none => rw [hfind] at h; simp at h
  | some d =>
    rw [hfind] at h
    simp only [Option.some.injEq] at h
    subst h
    have hpred := List.find?_some hfind
    have hmem := List.mem_of_find?_eq_some hfind
    refine ⟨?_, hmem, ?_, ?_⟩
    · simpa [cellAt, Option.isNone_iff_eq_none] using hpred
    · simp [hfind]
    · simp [hfind]

theorem claimStep_preserves_claimed {f : Fid} {s : ServerState} {y x : Nat}
    (h : s.grid y x ≠ none) : (claimStep f s).2.grid y x = s.grid y x := by
  unfold claimStep
  cases hfind : findFirstUnclaimed s.grid with
  | none => rfl
  | some d =>
    have hpred := List.find?_some hfind
    simp only
    by_cases hc : y = d.2 ∧ x = d.1
    · exfalso
      obtain ⟨h2, h1⟩ := hc
      subst h2; subst h1
      rw [Option.isNone_iff_eq_none] at hpred
      exact h hpred
    · rw [if_neg hc]

theorem runClaims_preserves_claimed :
    ∀ (gs : List Fid) (s : ServerState) (y x : Nat), s.grid y x ≠ none →
      (runClaims gs s).grid y x = s.grid y x := by
  intro gs
  induction gs with
  | nil => intro s y x _; rfl
  | cons g t ih =>
    intro s y x h
    have hstep := claimStep_preserves_claimed (f := g) (s := s) h
    rw [runClaims, ih (claimStep g s).2 y x (by rw [hstep]; exact h), hstep]

/-- C2: a cell's state transitions `Unclaimed → Claimed` at most once and
never reverts: a claim request never changes an already-claimed cell; and no
two distinct successful claims return the same coordinate — once a claim by
`f` returns `c`, no later claim (after any interleaving) can return `c`. -/
theorem claimed_cell_permanent_and_unique :
    (∀ (s : ServerState) (f : Fid) (y x : Nat), s.grid y x ≠ none →
      (claimStep f s).2.grid y x = s.grid y x) ∧
    (∀ (s : ServerState) (f g : Fid) (gs : List Fid) (c : Coord),
      (claimStep f s).1 = some c →
      (claimStep g (runClaims gs (claimStep f s).2)).1 ≠ some c) := by
  constructor
  · intro s f y x h
    exact claimStep_preserves_claimed h
  · intro s f g gs c hf hg
    have h1 := (claimStep_found hf).2.2.1
    have h2 : (runClaims gs (claimStep f s).2).grid c.2 c.1 = some f := by
      rw [runClaims_preserves_claimed gs _ c.2 c.1 (by rw [h1]; simp)]
      exact h1
    have h3 := (claimStep_found hg).1
    rw [h2] at h3
    simp at h3

/-- Witness for C2: claiming after `(0,0)` is taken does not change `(0,0)`,
and no later claim returns `(0,0)` again. -/
theorem claimed_cell_permanent_and_unique_witness :
    ((claimStep 9 (claimStep 5 initialState).2).2.grid 0 0
        = (claimStep 5 initialState).2.grid 0 0) ∧
      (claimStep 9 (runClaims [8] (claimStep 5 initialState).2)).1 ≠ some (0, 0) :=
  ⟨claimed_cell_permanent_and_unique.1 (claimStep 5 initialState).2 9 0 0 (by decide),
    claimed_cell_permanent_and_unique.2 initialState 5 9 [8] (0, 0) (by decide)⟩

/-- C10: a successful claim by `f` returning `c` modifies only the single
grid cell `grid[c.y][c.x]` (set to `{ fid }`) and only appends `c` to
`userPixels[f]`; every other cell and every other owner's list is unchanged,
and `f`'s earlier entries keep their values and order. -/
theorem claim_frame_effect (s : ServerState) (f : Fid) (c : Coord)
    (h : (claimStep f s).1 = some c) :
    (claimStep f s).2.grid c.2 c.1 = some f ∧
    (∀ y x : Nat, ¬(y = c.2 ∧ x = c.1) → (claimStep f s).2.grid y x = s.grid y x) ∧
    (claimStep f s).2.userPixels f = s.userPixels f ++ [c] ∧
    (∀ o : Fid, o ≠ f → (claimStep f s).2.userPixels o = s.userPixels o) := by
  obtain ⟨hnone, hmem, hset, happ⟩ := claimStep_found h
  refine ⟨hset, ?_, happ, ?_⟩
  · intro y x hne
    unfold claimStep at h ⊢
    cases hfind : findFirstUnclaimed s.grid with
    | none => simp [hfind] at h
    | some d =>
      rw [hfind] at h
      simp only [Option.some.injEq] at h
      subst h
      simp only [if_neg hne]
  · intro o ho
    unfold claimStep at h ⊢
    cases hfind : findFirstUnclaimed s.grid with
    | none => simp [hfind] at h
    | some d =>
      simp only [if_neg ho]

/-- Witness for C10: the second claim (by 7, landing at `(10,0)`) sets that
cell, leaves `(0,0)` owned by 5, and leaves 5's list untouched. -/
theorem claim_frame_effect_witness :
    (claimStep 7 (claimStep 5 initialState).2).2.grid 0 10 = some 7 ∧
      (claimStep 7 (claimStep 5 initialState).2).2.grid 0 0
        = (claimStep 5 initialState).2.grid 0 0 ∧
      (claimStep 7 (claimStep 5 initialState).2).2.userPixels 5
        = (claimStep 5 initialState).2.userPixels 5 := by
  have h := claim_frame_effect (claimStep 5 initialState).2 7 (10, 0) (by decide)
  exact ⟨h.1, h.2.1 0 0 (by decide), h.2.2.2 5 (by decide)⟩

/-! ### Grid / ClaimIndex correspondence -/

/-- The Grid/ClaimIndex correspondence: every coordinate listed under an
owner is claimed by that owner in the grid, and every claimed cell appears in
exactly one owner's list, exactly once. -/
def GridIndexInv (s : ServerState) : Prop :=
  (∀ (o : Fid) (c : Coord), c ∈ s.userPixels o → s.grid c.2 c.1 = some o) ∧
  (∀ (x y : Nat) (o : Fid), s.grid y x = some o →
    (s.userPixels o).count (x, y) = 1 ∧
    ∀ o2 : Fid, o2 ≠ o → (x, y) ∉ s.userPixels o2)

theorem gridIndexInv_initial : GridIndexInv initialState := by
  constructor
  · intro o c hc; simp [initialState] at hc
  · intro x y o h; simp [initialState] at h

theorem gridIndexInv_claimStep {s : ServerState} (hinv : GridIndexInv s) (f : Fid) :
    GridIndexInv (claimStep f s).2 := by
  cases hres : (claimStep f s).1 with
  | none =>
    have : (claimStep f s).2 = s := by
      unfold claimStep at hres ⊢
      cases hfind : findFirstUnclaimed s.grid with
      | none => rfl
      | some d => simp [hfind] at hres
    rw [this]; exact hinv
  | some c =>
    obtain ⟨hnone, hmem, hset, happ⟩ := claimStep_found hres
    obtain ⟨hfwd, hbwd⟩ := hinv
    obtain ⟨hgrid_other, hup_f, hup_other⟩ :=
      (claim_frame_effect s f c hres).2
    have hc_not_in : ∀ o : Fid, c ∉ s.userPixels o := by
      intro o hco
      have := hfwd o c hco
      rw [hnone] at this; simp at this
    constructor
    · intro o d hd
      by_cases ho : o = f
      · subst ho
        rw [hup_f] at hd
        rcases List.mem_append.mp hd with hd | hd
        · have := hfwd o d hd
          by_cases hdc : d = c
          · exact absurd (hdc ▸ hd) (hc_not_in o)
          · rw [hgrid_other d.2 d.1 ?_]
            · exact this
            · rintro ⟨h2, h1⟩
              exact hdc (Prod.ext h1 h2)
        · simp at hd
          rw [hd]
          exact hset
      · rw [hup_other o ho] at hd
        have := hfwd o d hd
        have hdc : d ≠ c := by
          intro hdc; exact (hc_not_in o) (hdc ▸ hd)
        rw [hgrid_other d.2 d.1 ?_]
        · exact this
        · rintro ⟨h2, h1⟩
          exact hdc (Prod.ext h1 h2)
    · intro x y o hclaimed
      by_cases hxy : y = c.2 ∧ x = c.1
      · have hxyc : ((x, y) : Coord) = c := Prod.ext hxy.2 hxy.1
        have hs : (claimStep f s).2.grid y x = some f := by
          rw [hxy.1, hxy.2]; exact hset
        have hof : o = f := by
          have h := hs.symm.trans hclaimed
          exact (Option.some_inj.mp h).symm
        constructor
        · rw [hof, hup_f, List.count_append, hxyc]
          have h0 : (s.userPixels f).count c = 0 :=
            List.count_eq_zero.mpr (hc_not_in f)
          simp [h0]
        · intro o2 ho2
          rw [hof] at ho2
          rw [hup_other o2 ho2, hxyc]
          exact hc_not_in o2
      · have hold : s.grid y x = some o := by
          rw [← hgrid_other y x hxy]; exact hclaimed
        have hxyc : ((x, y) : Coord) ≠ c := by
          intro he
          apply hxy
          constructor
          · rw [← he]
          · rw [← he]
        obtain ⟨hcount, hnotin⟩ := hbwd x y o hold
        constructor
        · by_cases ho : o = f
          · subst ho
            rw [hup_f, List.count_append]
            have : ([c].count ((x, y) : Coord)) = 0 :=
              List.count_eq_zero.mpr (by simpa using hxyc)
            omega
          · rw [hup_other o ho]; exact hcount
        · intro o2 ho2
          by_cases ho2f : o2 = f
          · subst ho2f
            rw [hup_f]
            intro hmem2
            rcases List.mem_append.mp hmem2 with hm | hm
            · exact hnotin o2 ho2 hm
            · simp at hm
              exact hxyc hm
          · rw [hup_other o2 ho2f]
            exact hnotin o2 ho2

theorem gridIndexInv_runClaims :
    ∀ (fs : List Fid) (s : ServerState), GridIndexInv s → GridIndexInv (runClaims fs s) := by
  intro fs
  induction fs with
  | nil => intro s h; exact h
  | cons f t ih => intro s h; exact ih _ (gridIndexInv_claimStep h f)

/-- C3: after any sequence of claim operations from the empty state, the
ClaimIndex corresponds bijectively to the claimed cells of the grid: every
coordinate listed under owner `o` is claimed by `o` in the grid, and every
claimed cell appears in exactly one owner's list, exactly once. -/
theorem grid_index_bijective (fs : List Fid) : GridIndexInv (stateAfter fs) :=
  gridIndexInv_runClaims fs initialState gridIndexInv_initial

/-- Witness for C3 on the state after claims by 5 and 5: `(10,0)` is listed
under owner `5` and the grid agrees, with multiplicity exactly one. -/
theorem grid_index_bijective_witness :
    (stateAfter [5, 5]).grid 0 10 = some 5 ∧
      ((stateAfter [5, 5]).userPixels 5).count (10, 0) = 1 :=
  ⟨(grid_index_bijective [5, 5]).1 5 (10, 0) (by decide),
    ((grid_index_bijective [5, 5]).2 10 0 5 (by decide)).1⟩

/-! ### The `POST /api/frame` handler -/

/-- A JavaScript value passed to `generateImage` (`src/index.js` line 203):
`generateImage(claimedPosition?.x, claimedPosition?.y)` passes `undefined`
when `claimedPosition` is `null`, and `GET /frame-image` (line 163) passes
`null` explicitly. -/
inductive JSVal
  | null
  | undef
  | num (n : Nat)
deriving DecidableEq

/-- Outcome of the `await saveData()` call (`src/index.js` line 200):
`fs.writeFile` either resolves or rejects with an I/O error. -/
inductive SaveOutcome
  | ok
  | ioError
deriving DecidableEq

/-- The JSON frame response (`src/index.js` lines 205-215): button label,
message text, and the two arguments passed to `generateImage` for the
response image (line 203). -/
structure FrameResponse where
  buttonLabel : String
  text : String
  highlightArgs : JSVal × JSVal
deriving DecidableEq

/-- How the handler terminates: a JSON response, or an uncaught exception
(when `await saveData()` rejects, the `async` handler rejects before
`generateImage` and `res.json` are reached, and no response is produced). -/
inductive HandlerOutcome
  | responded (r : FrameResponse)
  | errored
deriving DecidableEq

/-- A full run of the handler: its outcome, the in-memory state it leaves
behind, and whether `saveData` was invoked (it is invoked at most once;
there is no retry in the source). -/
structure HandlerRun where
  outcome : HandlerOutcome
  state : ServerState
  saveCalled : Bool

/-- The "canvas full" message (`src/index.js` line 214). -/
def noSpaceText : String := "Sorry, no pixels available. Try again later!"

/-- The success message (`src/index.js` line 213). -/
def claimedText (c : Coord) : String :=
  "You claimed a pixel at (" ++ toString c.1 ++ ", " ++ toString c.2 ++
    ")! Check the dashboard to see all your pixels."

/-- The `POST /api/frame` handler after signature verification
(`src/index.js` lines 179-215), parameterised by the outcome of the
`saveData` call: scan-and-claim; if a cell was claimed, persist (a rejected
save aborts the handler with the mutation already applied); otherwise skip
persistence and respond "no pixels available" with
`generateImage(undefined, undefined)`. -/
def handleFrame (fid : Fid) (save : SaveOutcome) (s : ServerState) : HandlerRun :=
  match claimStep fid s with
  | (none, _) =>
    { outcome := .responded
        { buttonLabel := "Claim Pixel"
          text := noSpaceText
          highlightArgs := (JSVal.undef, JSVal.undef) }
      state := s
      saveCalled := false }
  | (some c, s2) =>
    match save with
    | .ioError => { outcome := .errored, state := s2, saveCalled := true }
    | .ok =>
      { outcome := .responded
          { buttonLabel := "Pixel Claimed!"
            text := claimedText c
            highlightArgs := (JSVal.num c.1, JSVal.num c.2) }
        state := s2
        saveCalled := true }

/-- A state whose every lattice cell is claimed. -/
def fullGridState : ServerState :=
  { grid := fun _ _ => some 0, userPixels := fun _ => [] }

/-- C4: when all `(GRID_SIZE/TOKEN_SIZE)^2 = 10000` lattice cells are
claimed, a further claim request responds normally with the "no space
available" message and no highlight, leaves the grid and the ClaimIndex
untouched, and never calls `saveData`. -/
theorem canvas_full_no_change (f : Fid) (save : SaveOutcome) (s : ServerState)
    (hfull : ∀ c ∈ scanOrder, (s.grid c.2 c.1).isSome = true) :
    scanOrder.length = (GRID_SIZE / TOKEN_SIZE) ^ 2 ∧
      handleFrame f save s =
        { outcome := .responded
            { buttonLabel := "Claim Pixel"
              text := noSpaceText
              highlightArgs := (JSVal.undef, JSVal.undef) }
          state := s
          saveCalled := false } := by
  have hlen : scanOrder.length = (GRID_SIZE / TOKEN_SIZE) ^ 2 := by
    rw [scanOrder_length]; norm_num [GRID_SIZE, TOKEN_SIZE]
  refine ⟨hlen, ?_⟩
  have hnone : findFirstUnclaimed s.grid = none := by
    rw [findFirstUnclaimed, List.find?_eq_none]
    intro c hc
    have := hfull c hc
    cases hcell : cellAt s.grid c with
    | none =>
      have h2 : s.grid c.2 c.1 = none := hcell
      rw [h2] at this
      simp at this
    | some v => simp
  unfold handleFrame claimStep
  rw [hnone]

/-- Witness for C4, at the concretely full grid `fullGridState`. -/
theorem canvas_full_no_change_witness :
    (∀ c ∈ scanOrder, (fullGridState.grid c.2 c.1).isSome = true) ∧
      (handleFrame 3 .ok fullGridState).outcome =
        .responded
          { buttonLabel := "Claim Pixel"
            text := noSpaceText
            highlightArgs := (JSVal.undef, JSVal.undef) } ∧
      (handleFrame 3 .ok fullGridState).state = fullGridState ∧
      (handleFrame 3 .ok fullGridState).saveCalled = false := by
  have hfull : ∀ c ∈ scanOrder, (fullGridState.grid c.2 c.1).isSome = true :=
    fun c _ => rfl
  have h := (canvas_full_no_change 3 .ok fullGridState hfull).2
  exact ⟨hfull, by rw [h], by rw [h], by rw [h]⟩

/-- Counterexample for C5: on the empty state with a failing `saveData`,
the handler errors out with no response at all (so no failure *response* is
reported), and the in-memory mutation is retained — cell `(0,0)` stays
claimed by `42` and the state is not rolled back to the pre-claim state. -/
theorem save_failure_cex :
    (handleFrame 42 .ioError initialState).outcome = .errored ∧
      (handleFrame 42 .ioError initialState).state.grid 0 0 = some 42 ∧
      (handleFrame 42 .ioError initialState).state ≠ initialState := by
  refine ⟨by decide, by decide, ?_⟩
  intro h
  have h2 := congrArg (fun t => t.grid 0 0) h
  simp only at h2
  have h3 : (handleFrame 42 .ioError initialState).state.grid 0 0 = some 42 := by decide
  rw [h3] at h2
  simp [initialState] at h2

/-- C5 (amended): when `saveData` rejects after a successful in-memory
claim, the handler aborts before producing any response — success is never
reported — but the mutation is neither rolled back nor retried: the
post-state is exactly the mutated state of the claim, and `saveData` was
invoked exactly once. -/
theorem save_failure_keeps_mutation (f : Fid) (s : ServerState) (c : Coord)
    (h : (claimStep f s).1 = some c) :
    handleFrame f .ioError s =
      { outcome := .errored, state := (claimStep f s).2, saveCalled := true } := by
  unfold handleFrame
  cases hstep : claimStep f s with
  | mk r s2 =>
    rw [hstep] at h
    simp only at h
    subst h
    rfl

/-- Witness for C5's amended theorem at `f = 42` on the empty state. -/
theorem save_failure_keeps_mutation_witness :
    (claimStep 42 initialState).1 = some (0, 0) ∧
      handleFrame 42 .ioError initialState =
        { outcome := .errored, state := (claimStep 42 initialState).2,
          saveCalled := true } :=
  ⟨by decide, save_failure_keeps_mutation 42 initialState (0, 0) (by decide)⟩

/-! ### Persistence: JSON snapshot, `loadData`, startup -/

/-- A parsed JSON value, as produced by `JSON.parse` on the snapshot files. -/
inductive Json
  | null
  | num (n : Nat)
  | str (s : String)
  | arr (l : List Json)
  | obj (m : List (String × Json))

/-- `JSON.stringify` of one grid cell: `null` stays `null`, the claim object
`{ fid }` becomes `{"fid": n}`. -/
def encodeCell : Cell → Json
  | none => Json.null
  | some fid => Json.obj [("fid", Json.num fid)]

/-- Reading one cell out of the parsed grid: the claim loop only tests
truthiness (`!grid[y][x]`), and a claim object carries its `fid`. -/
def decodeCell : Json → Cell
  | Json.obj [(k, Json.num fid)] => if k = "fid" then some fid else none
  | _ => none

/-- `JSON.stringify(grid)` (`src/index.js` line 39): the 2-D
`GRID_SIZE × GRID_SIZE` array of cells, row by row. -/
def encodeGrid (g : GridFun) : Json :=
  Json.arr ((List.range GRID_SIZE).map fun y =>
    Json.arr ((List.range GRID_SIZE).map fun x => encodeCell (g y x)))

/-- Indexing `grid[y][x]` on the parsed snapshot (`grid = JSON.parse(...)`,
`src/index.js` line 28); an out-of-range or non-array access yields
`undefined`, which the claim loop treats like an unclaimed cell (falsy). -/
def decodeGrid (j : Json) : GridFun := fun y x =>
  match j with
  | Json.arr rows =>
    match rows.getD y Json.null with
    | Json.arr row => decodeCell (row.getD x Json.null)
    | _ => none
  | _ => none

theorem decodeCell_encodeCell (c : Cell) : decodeCell (encodeCell c) = c := by
  cases c with
  | none => rfl
  | some fid => simp [encodeCell, decodeCell]

/-- The grid round-trips through the JSON snapshot on every in-range cell. -/
theorem decodeGrid_encodeGrid (g : GridFun) {y x : Nat}
    (hy : y < GRID_SIZE) (hx : x < GRID_SIZE) :
    decodeGrid (encodeGrid g) y x = g y x := by
  simp only [decodeGrid, encodeGrid]
  rw [List.getD_eq_getElem _ _ (by simpa using hy)]
  simp only [List.getElem_map, List.getElem_range]
  rw [List.getD_eq_getElem _ _ (by simpa using hx)]
  simp only [List.getElem_map, List.getElem_range]
  exact decodeCell_encodeCell (g y x)

/-- Result of one `fs.readFile` + `JSON.parse` step in `loadData`
(`src/index.js` lines 27-30): parsed content, or a rejection whose `code`
is `'ENOENT'` (file missing), or any other failure. -/
inductive ReadResult
  | ok (j : Json)
  | errEnoent
  | errOther

/-- State after `loadData` plus whether `console.error` ran: whether the
error branch for a non-`ENOENT` failure was taken (`src/index.js` line 33). -/
structure BootState where
  state : ServerState
  loggedError : Bool

/-- Decoding `user_pixels.json`: `userPixels[fid]` looks up the key
`String(fid)` in the parsed object; entries are arrays of `{x, y}`
position objects. -/
def decodeCoordObj : Json → Option Coord
  | Json.obj [(kx, Json.num x), (ky, Json.num y)] =>
    if kx = "x" ∧ ky = "y" then some (x, y) else none
  | _ => none

def decodeUsers (j : Json) : Fid → List Coord := fun f =>
  match j with
  | Json.obj entries =>
    match entries.find? (fun e => e.1 = toString f) with
    | some (_, Json.arr l) => l.filterMap decodeCoordObj
    | _ => []
  | _ => []

/-- `loadData` (`src/index.js` lines 25-36): read and parse `grid.json`,
assign `grid`; then read and parse `user_pixels.json`, assign `userPixels`.
The first rejection jumps to the `catch`, which logs the error unless its
code is `'ENOENT'` and then **returns normally** — the state keeps whatever
was assigned before the failure.  `readUsers` is what the second read would
return if it is reached. -/
def loadData (readGrid readUsers : ReadResult) (s : ServerState) : BootState :=
  match readGrid with
  | .ok jg =>
    match readUsers with
    | .ok ju => { state := { grid := decodeGrid jg, userPixels := decodeUsers ju },
                  loggedError := false }
    | .errEnoent => { state := { grid := decodeGrid jg, userPixels := s.userPixels },
                      loggedError := false }
    | .errOther => { state := { grid := decodeGrid jg, userPixels := s.userPixels },
                     loggedError := true }
  | .errEnoent => { state := s, loggedError := false }
  | .errOther => { state := s, loggedError := true }

/-- Process startup (`src/index.js` lines 218-222):
`loadData().then(() => app.listen(...))`.  `loadData` catches every failure
and always resolves, so `app.listen` runs unconditionally; the boolean
records that the server started. -/
def startServer (readGrid readUsers : ReadResult) : BootState × Bool :=
  (loadData readGrid readUsers initialState, true)

/-- Counterexample for C6: a read failure that is *not* `ENOENT` is not
fatal — the error is merely logged and the server still starts, with the
fresh empty state. -/
theorem load_error_not_fatal_cex :
    (startServer .errOther .errOther).2 = true ∧
      (startServer .errOther .errOther).1.state = initialState ∧
      (startServer .errOther .errOther).1.loggedError = true :=
  ⟨rfl, rfl, rfl⟩

/-- C6 (amended): when no snapshot exists (`ENOENT` on the first read),
`loadData` leaves the fresh, fully unclaimed grid and the empty ClaimIndex
without logging; but a read failure other than a missing snapshot is *not*
fatal to startup: it is logged via `console.error` and the process
continues — `app.listen` always runs — with the state loaded so far (the
empty state when the grid read failed). -/
theorem load_missing_fresh_error_continues :
    (∀ ru : ReadResult, loadData .errEnoent ru initialState =
      { state := initialState, loggedError := false }) ∧
    (∀ ru : ReadResult, loadData .errOther ru initialState =
      { state := initialState, loggedError := true }) ∧
    (∀ rg ru : ReadResult, (startServer rg ru).2 = true) := by
  refine ⟨fun ru => rfl, fun ru => rfl, fun rg ru => rfl⟩

/-! ### Snapshot round trip preserves allocation behaviour -/

/-- Two grids agreeing on every scanned lattice cell. -/
def GridAgree (g g2 : GridFun) : Prop :=
  ∀ c ∈ scanOrder, g c.2 c.1 = g2 c.2 c.1

theorem find?_congr_on {α : Type} (p q : α → Bool) :
    ∀ l : List α, (∀ c ∈ l, p c = q c) → l.find? p = l.find? q := by
  intro l
  induction l with
  | nil => intro _; rfl
  | cons a t ih =>
    intro h
    have ha := h a (List.mem_cons_self a t)
    rw [List.find?_cons, List.find?_cons, ha, ih fun c hc => h c (List.mem_cons_of_mem a hc)]

theorem findFirstUnclaimed_agree {g g2 : GridFun} (h : GridAgree g g2) :
    findFirstUnclaimed g = findFirstUnclaimed g2 := by
  unfold findFirstUnclaimed
  exact find?_congr_on _ _ scanOrder fun c hc => by
    rw [show cellAt g c = g c.2 c.1 from rfl, show cellAt g2 c = g2 c.2 c.1 from rfl, h c hc]

theorem claimStep_agree {s s2 : ServerState} (f : Fid)
    (h : GridAgree s.grid s2.grid) :
    (claimStep f s).1 = (claimStep f s2).1 ∧
      GridAgree (claimStep f s).2.grid (claimStep f s2).2.grid := by
  have hfind := findFirstUnclaimed_agree h
  unfold claimStep
  cases hres : findFirstUnclaimed s.grid with
  | none =>
    rw [hfind] at hres
    rw [hres]
    exact ⟨rfl, h⟩
  | some c =>
    rw [hfind] at hres
    rw [hres]
    refine ⟨rfl, ?_⟩
    intro d hd
    by_cases hc : d.2 = c.2 ∧ d.1 = c.1
    · simp only [if_pos hc]
    · simp only [if_neg hc]
      exact h d hd

theorem runResults_agree :
    ∀ (fs : List Fid) (s s2 : ServerState), GridAgree s.grid s2.grid →
      runResults fs s = runResults fs s2 := by
  intro fs
  induction fs with
  | nil => intro s s2 _; rfl
  | cons f t ih =>
    intro s s2 h
    obtain ⟨h1, h2⟩ := claimStep_agree f h
    rw [runResults, runResults, h1, ih _ _ h2]

/-- C9: persisting the grid snapshot (`saveData`, `JSON.stringify`) and
loading it back (`loadData`, `JSON.parse`) restores a state on which every
subsequent sequence of claim operations returns exactly the same results as
on the pre-persist state.  The reloaded ClaimIndex is quantified over an
arbitrary parsed `user_pixels.json` content `ju`, since allocation results
never depend on it. -/
theorem save_load_preserves_allocation (s : ServerState) (ju : Json) (fs : List Fid) :
    runResults fs (loadData (.ok (encodeGrid s.grid)) (.ok ju) initialState).state =
      runResults fs s := by
  apply runResults_agree
  intro c hc
  obtain ⟨hx, hy⟩ := scanOrder_mem_bounds hc
  exact decodeGrid_encodeGrid s.grid hy hx

/-! ### The image pipeline -/

/-- An RGBA colour with integer channels. -/
structure Color where
  r : Int
  g : Int
  b : Int
  a : Int
deriving DecidableEq

/-- Modelled from the spec: `Jimp.rgbaToInt` packs four channel values into
one colour; the spec describes each channel of the tile colour model as
`round(...)` of the real-valued expression, so channel packing is modelled
as rounding each channel to the nearest integer. -/
noncomputable def rgbaToInt (r g b a : ℝ) : Color :=
  { r := round r, g := round g, b := round b, a := round a }

/-- `generatePixelColor` (`src/index.js` lines 43-53): claimed tiles get the
sine palette with factor `0.3` and amplitude `127` around `128`; unclaimed
tiles get the gray wash `sin(0.1(x+y))*30 + 225` on all three channels;
alpha is always `255`. -/
noncomputable def generatePixelColor (x y : Nat) (claimed : Bool) : Color :=
  if claimed then
    rgbaToInt (Real.sin (0.3 * (x : ℝ)) * 127 + 128)
      (Real.sin (0.3 * (y : ℝ)) * 127 + 128)
      (Real.sin (0.3 * ((x : ℝ) + (y : ℝ))) * 127 + 128) 255
  else
    rgbaToInt (Real.sin (0.1 * ((x : ℝ) + (y : ℝ))) * 30 + 225)
      (Real.sin (0.1 * ((x : ℝ) + (y : ℝ))) * 30 + 225)
      (Real.sin (0.1 * ((x : ℝ) + (y : ℝ))) * 30 + 225) 255

/-- The opaque white background `0xFFFFFFFF` (`src/index.js` line 58). -/
def white : Color := { r := 255, g := 255, b := 255, a := 255 }

/-- Modelled from the spec: `Jimp.blend` is standard source-over alpha
compositing of the semi-transparent source colour over the base colour
(integer-quantised). -/
def blend (base src : Color) : Color :=
  { r := (src.r * src.a + base.r * (255 - src.a)) / 255
    g := (src.g * src.a + base.g * (255 - src.a)) / 255
    b := (src.b * src.a + base.b * (255 - src.a)) / 255
    a := src.a + base.a * (255 - src.a) / 255 }

/-- The semi-transparent yellow highlight
`Jimp.rgbaToInt(255, 255, 0, 128)` (`src/index.js` line 75). -/
noncomputable def highlightColor : Color := rgbaToInt 255 255 0 128

/-- An output raster: colour at each pixel coordinate `(x, y)`.  The buffer
index arithmetic `(width * y + x) << 2` is modelled by absolute pixel
coordinates. -/
abbrev Image := Nat × Nat → Color

/-- `Math.floor(v * scaleFactor)` for `scaleFactor = 1200 / GRID_SIZE = 1.2`
(`src/index.js` lines 60-61, 66-67, 76-77).  On every coordinate this code
applies it to — multiples of `TOKEN_SIZE` up to `GRID_SIZE`, and
`TOKEN_SIZE` itself — the double computation `Math.floor(v * 1.2)` is exact
and equals `v * 6 / 5` over the naturals. -/
def jsScale (v : Nat) : Nat := v * 6 / 5

/-- `scaledTokenSize = Math.floor(TOKEN_SIZE * scaleFactor) = 12`. -/
def scaledTokenSize : Nat := jsScale TOKEN_SIZE

/-- Membership of pixel `p` in the `w × h` rectangle anchored at
`(x0, y0)`, the region traversed by `image.scanQuiet(x0, y0, w, h, ...)`. -/
def inRect (x0 y0 w h : Nat) (p : Nat × Nat) : Bool :=
  decide (x0 ≤ p.1) && decide (p.1 < x0 + w) && decide (y0 ≤ p.2) && decide (p.2 < y0 + h)

/-- One `scanQuiet` fill of a tile's scaled rectangle with a flat colour
(`src/index.js` lines 68-70). -/
def paintRect (x0 y0 w h : Nat) (c : Color) (img : Image) : Image :=
  fun p => if inRect x0 y0 w h p then c else img p

/-- The base pass of `generateImage` (`src/index.js` lines 63-72): starting
from the white canvas, paint every tile's scaled rectangle with its
`generatePixelColor`, in scan order. -/
noncomputable def baseImage (g : GridFun) : Image :=
  scanOrder.foldl
    (fun img t =>
      paintRect (jsScale t.1) (jsScale t.2) scaledTokenSize scaledTokenSize
        (generatePixelColor t.1 t.2 (g t.2 t.1).isSome) img)
    (fun _ => white)

/-- A scaled scan anchor as a JS number: a genuine integer, or `NaN`
(`Math.floor(undefined * scaleFactor)` is `NaN`). -/
inductive ScanAnchor
  | nan
  | int (n : Nat)

/-- `Math.floor(v * scaleFactor)` on the highlight argument (`src/index.js`
lines 76-77): a number scales exactly (see `jsScale`); `undefined` yields
`NaN`; `null` would coerce to `0`, but the guard on line 74 makes that case
unreachable. -/
def scaleArg : JSVal → ScanAnchor
  | JSVal.num v => ScanAnchor.int (jsScale v)
  | JSVal.undef => ScanAnchor.nan
  | JSVal.null => ScanAnchor.int 0

/-- The pixels visited by `scanQuiet(x0, y0, w, h, ...)` when the anchors
may be `NaN`: a JS `for` loop `for (let _y = y0; _y < y0 + h; _y++)` with a
`NaN` bound executes no iterations, since every comparison against `NaN` is
false — so a `NaN` anchor yields the empty region. -/
def inScanRegion (sx sy : ScanAnchor) (w h : Nat) (p : Nat × Nat) : Bool :=
  match sx, sy with
  | ScanAnchor.int a, ScanAnchor.int b => inRect a b w h p
  | _, _ => false

/-- The highlight pass of `generateImage` (`src/index.js` lines 74-83): if
`newPixelX !== null && newPixelY !== null` (note: `undefined !== null` is
*true*), blend the semi-transparent yellow over the scan region anchored at
the scaled coordinates; each visited pixel becomes
`Jimp.blend(baseColor, highlightColor)`. -/
noncomputable def highlightStage (g : GridFun) (nx ny : JSVal) : Image :=
  if nx ≠ JSVal.null ∧ ny ≠ JSVal.null then
    fun p =>
      if inScanRegion (scaleArg nx) (scaleArg ny) scaledTokenSize scaledTokenSize p then
        blend (baseImage g p) highlightColor
      else baseImage g p
  else baseImage g

/-- `generateImage` (`src/index.js` lines 55-89): base pass, highlight
pass, then the caption `image.print(font, 10, 10, 'Million Pixel Frame')`,
modelled as an abstract overlay `printCaption` applied to the composed
image (the font rendering is external library data). -/
noncomputable def generateImage (printCaption : Image → Image) (g : GridFun)
    (nx ny : JSVal) : Image :=
  printCaption (highlightStage g nx ny)

/-- C7: the semi-transparent yellow source-over highlight is blended over a
tile's scaled rectangle exactly when a highlight coordinate is present
(blend inside the rectangle, plain base colour outside); and the response
image of the "no cell claimed" path — which passes
`(undefined, undefined)`, yet still enters the highlight branch and then
scans an empty `NaN` region — has no highlight applied and is pixel-for-
pixel the plain render `generateImage(null, null)`; the handler indeed
passes `(undefined, undefined)` on that path. -/
theorem highlight_blend_iff_present :
    (∀ (g : GridFun) (x y : Nat) (p : Nat × Nat),
      highlightStage g (JSVal.num x) (JSVal.num y) p =
        if inRect (jsScale x) (jsScale y) scaledTokenSize scaledTokenSize p then
          blend (baseImage g p) highlightColor
        else baseImage g p) ∧
    (∀ (printCaption : Image → Image) (g : GridFun),
      generateImage printCaption g JSVal.undef JSVal.undef =
        generateImage printCaption g JSVal.null JSVal.null) ∧
    (∀ (f : Fid) (save : SaveOutcome) (s : ServerState),
      (claimStep f s).1 = none →
      (handleFrame f save s).outcome =
        .responded
          { buttonLabel := "Claim Pixel", text := noSpaceText,
            highlightArgs := (JSVal.undef, JSVal.undef) }) := by
  refine ⟨?_, ?_, ?_⟩
  · intro g x y p
    rw [highlightStage, if_pos (by exact ⟨by simp, by simp⟩)]
    rfl
  · intro printCaption g
    have h1 : highlightStage g JSVal.undef JSVal.undef = baseImage g := by
      rw [highlightStage,
        if_pos (⟨by simp, by simp⟩ : JSVal.undef ≠ JSVal.null ∧ JSVal.undef ≠ JSVal.null)]
      funext p
      rw [show inScanRegion (scaleArg JSVal.undef) (scaleArg JSVal.undef)
          scaledTokenSize scaledTokenSize p = false from rfl]
      simp
    have h2 : highlightStage g JSVal.null JSVal.null = baseImage g := by
      rw [highlightStage,
        if_neg (by simp : ¬(JSVal.null ≠ JSVal.null ∧ JSVal.null ≠ JSVal.null))]
    rw [generateImage, generateImage, h1, h2]
  · intro f save s h
    unfold handleFrame
    cases hstep : claimStep f s with
    | mk r s2 =>
      rw [hstep] at h
      simp only at h
      subst h
      rfl

/-- A helper full-grid fact proved without evaluating the whole scan. -/
theorem claimStep_fullGridState_none (f : Fid) :
    (claimStep f fullGridState).1 = none := by
  have hnone : findFirstUnclaimed fullGridState.grid = none := by
    rw [findFirstUnclaimed, List.find?_eq_none]
    intro c _
    simp [cellAt, fullGridState]
  unfold claimStep
  rw [hnone]

/-- Witness for C7: on the concretely full grid, the claim fails and the
handler responds with the `(undefined, undefined)` highlight arguments. -/
theorem highlight_blend_iff_present_witness :
    (claimStep 3 fullGridState).1 = none ∧
      (handleFrame 3 .ok fullGridState).outcome =
        .responded
          { buttonLabel := "Claim Pixel", text := noSpaceText,
            highlightArgs := (JSVal.undef, JSVal.undef) } :=
  ⟨claimStep_fullGridState_none 3,
    highlight_blend_iff_present.2.2 3 .ok fullGridState (claimStep_fullGridState_none 3)⟩

/-- C8: the tile colour model is a pure function of `(x, y, claimed)`; at
the origin it takes the spec's values `(128,128,128,255)` (claimed, since
`sin 0 = 0`) and `(225,225,225,255)` (unclaimed), and for claimed tiles
each channel is `round(sin(0.3·coord)·127 + 128)` with alpha `255`. -/
theorem tile_color_model :
    generatePixelColor 0 0 true = { r := 128, g := 128, b := 128, a := 255 } ∧
    generatePixelColor 0 0 false = { r := 225, g := 225, b := 225, a := 255 } ∧
    (∀ x y : Nat, generatePixelColor x y true =
      { r := round (Real.sin (0.3 * (x : ℝ)) * 127 + 128)
        g := round (Real.sin (0.3 * (y : ℝ)) * 127 + 128)
        b := round (Real.sin (0.3 * ((x : ℝ) + (y : ℝ))) * 127 + 128)
        a := 255 }) := by
  refine ⟨?_, ?_, ?_⟩
  · simp only [generatePixelColor, rgbaToInt, if_pos]
    norm_num
  · simp only [generatePixelColor, rgbaToInt, Bool.false_eq_true, if_neg]
    norm_num
  · intro x y
    simp only [generatePixelColor, rgbaToInt, if_pos]
    norm_num
